import Mathlib

/-!
Verification of `scr/scrape_data.py` (web-scraper).

The per-URL extractor `extract_value_from_url` is modelled as a function of
an oracle `events : Nat → AttemptEvent` giving, for each attempt number, the
outcome of the HTTP GET issued on that attempt (a successful response with a
parsed page, an HTTP error status, a timeout, a request exception, or an
unexpected exception).  The function returns a trace: the Python return value
(tagged by which `return` statement produced it), the number of HTTP requests
issued, and the list of retry-sleep durations in order.

The row-processing loop `process_urls` is modelled over a list of rows, each
holding an optional `url` cell (`none` models a NaN/missing value, as tested
by `pd.notna`) and the remaining pass-through cells.
-/

namespace ScrapeData

/-- A parsed HTML page, reduced to the two lookups the code performs:
`primary` is `soup.find('span', id='sidebar-title')` (the element's
`get_text(strip=True)` if the element exists, else `none`), and `fallback`
is `soup.find('span', attrs=qaselector sidebar-result-counter)` likewise. -/
structure Page where
  primary : Option String
  fallback : Option String
deriving DecidableEq, Repr

/-- The outcome of one HTTP GET attempt, as seen by the `try` block. -/
inductive AttemptEvent where
  | success (page : Page)
  | httpError (status : Nat)
  | timeout
  | reqException (msg : String)
  | unexpected (msg : String)
deriving DecidableEq, Repr

/-- The Python function returns `Optional[str]`; this type additionally tags
which return site produced the value: `text` for a successfully extracted
string (the `return extracted_text` site), `absent` for `return None`
(element not found), `failure` for the failure-description strings. -/
inductive ExtractResult where
  | text (s : String)
  | absent
  | failure (s : String)
deriving DecidableEq, Repr

/-- Trace of one `extract_value_from_url` call: the returned value, the number
of HTTP requests issued, and the sleep durations executed (in order). -/
structure ExtractTrace where
  ret : ExtractResult
  requests : Nat
  sleeps : List Nat
deriving DecidableEq, Repr

/-- The f-string of the non-retried HTTP-error return:
`HTTP Error: <status> (Attempt <attempt_num>)`. -/
def httpErrorMsg (status attempt_num : Nat) : String :=
  "HTTP Error: " ++ toString status ++ " (Attempt " ++ toString attempt_num ++ ")"

/-- The f-string of the loop's fallthrough return:
`Failed after <n> attempts (last error was likely 403 or Timeout)`. -/
def failedAfterMsg (n : Nat) : String :=
  "Failed after " ++ toString n ++ " attempts (last error was likely 403 or Timeout)"

/-- The `while attempt <= max_retries` loop of `extract_value_from_url`,
entered with the current value of `attempt`.  Each iteration issues one
request (consuming `events attempt`) and either returns or, on a 403 with
retries left or a timeout with retries left, sleeps `retry_delay` seconds,
increments `attempt` and continues.  Leaving the loop returns the
`"Failed after ..."` string. -/
def extractLoop (events : Nat → AttemptEvent) (max_retries retry_delay attempt : Nat) :
    ExtractTrace :=
  if _h : attempt ≤ max_retries then
    match events attempt with
    | .success page =>
      let extracted_text : Option String :=
        match page.primary with
        | some t => some t
        | none =>
          match page.fallback with
          | some t => some t
          | none => none
      match extracted_text with
      | some t => if t = "" then ⟨.absent, 1, []⟩ else ⟨.text t, 1, []⟩
      | none => ⟨.absent, 1, []⟩
    | .httpError status =>
      if h2 : status = 403 ∧ attempt < max_retries then
        let rest := extractLoop events max_retries retry_delay (attempt + 1)
        ⟨rest.ret, 1 + rest.requests, retry_delay :: rest.sleeps⟩
      else
        ⟨.failure (httpErrorMsg status (attempt + 1)), 1, []⟩
    | .timeout =>
      if h2 : attempt < max_retries then
        let rest := extractLoop events max_retries retry_delay (attempt + 1)
        ⟨rest.ret, 1 + rest.requests, retry_delay :: rest.sleeps⟩
      else
        ⟨.failure "Request Timeout", 1, []⟩
    | .reqException msg => ⟨.failure ("Request Exception: " ++ msg), 1, []⟩
    | .unexpected msg => ⟨.failure ("Unexpected Error: " ++ msg), 1, []⟩
  else
    ⟨.failure (failedAfterMsg (max_retries + 1)), 0, []⟩
termination_by max_retries + 1 - attempt
decreasing_by
  all_goals simp_wf
  · omega
  · omega

/-- `extract_value_from_url(url, max_retries, retry_delay)`: runs the retry
loop starting from `attempt = 0`. -/
def extract_value_from_url (events : Nat → AttemptEvent) (max_retries retry_delay : Nat) :
    ExtractTrace :=
  extractLoop events max_retries retry_delay 0

/-- Erases the return-site tag, recovering the `Optional[str]` the Python
function actually returns (and which `process_urls` stores in the row). -/
def toOptionalStr : ExtractResult → Option String
  | .text s => some s
  | .absent => none
  | .failure s => some s

/-- An input-table row: the `url` cell (`none` models NaN/missing, as tested
by `pd.notna(row['url'])`) plus the pass-through cells of the other columns. -/
structure InRow where
  url : Option String
  other : List String
deriving DecidableEq, Repr

/-- An output-table row: the original cells plus the `results` column. -/
structure OutRow where
  url : Option String
  other : List String
  results : Option String
deriving DecidableEq, Repr

/-- The string `process_urls` computes for a row:
`str(row['url']) if pd.notna(row['url']) else ""`. -/
def urlStr (r : InRow) : String := r.url.getD ""

/-- Python's `str.strip()`: drop whitespace from both ends. -/
def pyStrip (s : String) : String :=
  ⟨((s.data.dropWhile Char.isWhitespace).reverse.dropWhile Char.isWhitespace).reverse⟩

/-- Whether `process_urls` issues a request for the row: `url.strip()` truthy. -/
def isRequestRow (r : InRow) : Bool := pyStrip (urlStr r) ≠ ""

/-- `df['url'].count()`: the number of non-NaN entries of the `url` column
(`total_requests_to_make` in the code). -/
def countNonNull (rows : List InRow) : Nat :=
  (rows.filter (fun r => r.url ≠ none)).length

/-- The number of rows for which a request is actually issued. -/
def numNonBlank (rows : List InRow) : Nat :=
  (rows.filter (fun r => isRequestRow r)).length

/-- The (0-based) indices of the rows for which a request is issued, starting
the numbering at `idx`. -/
def requestIdxs : List InRow → Nat → List Nat
  | [], _ => []
  | r :: rs, idx =>
    if isRequestRow r then idx :: requestIdxs rs (idx + 1)
    else requestIdxs rs (idx + 1)

/-- Trace of one `process_urls` call: the table written to the output file
(`none` when the run aborts and writes nothing), whether the empty-table
error was reported, the number of extractor invocations, and the (0-based)
row indices after which the 2-second throttle sleep ran. -/
structure ProcessTrace where
  output : Option (List OutRow)
  emptyError : Bool
  requestsMade : Nat
  throttleSleeps : List Nat
deriving DecidableEq, Repr

/-- The `for index, row in df.iterrows()` loop of `process_urls`.  `net i` is
the attempt-event oracle for the extractor call made on row `i`; `total` is
`total_requests_to_make`; `idx` the current row index and `made` the value of
`requests_made_count`.  Returns the processed rows, the final
`requests_made_count`, and the row indices followed by a throttle sleep. -/
def processRows (net : Nat → Nat → AttemptEvent) (total : Nat) :
    List InRow → Nat → Nat → List OutRow × Nat × List Nat
  | [], _, made => ([], made, [])
  | r :: rs, idx, made =>
    if isRequestRow r then
      let result_value := toOptionalStr (extract_value_from_url (net idx) 2 5).ret
      let made' := made + 1
      let here : List Nat := if made' < total then [idx] else []
      let rest := processRows net total rs (idx + 1) made'
      (⟨r.url, r.other, result_value⟩ :: rest.1, rest.2.1, here ++ rest.2.2)
    else
      let rest := processRows net total rs (idx + 1) made
      (⟨r.url, r.other, none⟩ :: rest.1, rest.2.1, rest.2.2)

/-- `process_urls` on the loaded table `rows`: abort (with an error) when the
table is empty; otherwise add the `results` column (initially `None`), run
the row loop, and write the table out. -/
def process_urls (net : Nat → Nat → AttemptEvent) (rows : List InRow) : ProcessTrace :=
  if rows = [] then ⟨none, true, 0, []⟩
  else
    let total := countNonNull rows
    let res := processRows net total rows 0 0
    ⟨some res.1, false, res.2.1, res.2.2⟩

/-- A linear congruential step: the seedable deterministic pseudo-random
primitive driving the modelled sampler. -/
def lcgNext (s : Nat) : Nat := (1103515245 * s + 12345) % 2147483648

/-- Modelled from the spec: `df.sample(n=sample_size, random_state=42)` is
implemented by the external tabular library (pandas), whose code is not part
of this repository; the spec requires only "a seedable deterministic
random-selection primitive".  Modelled as selection without replacement
driven by `lcgNext` from the given seed: `n` draws, each picking an index of
the remaining rows. -/
def sampleAux : Nat → Nat → List InRow → List InRow
  | 0, _, _ => []
  | n + 1, s, avail =>
    if avail.isEmpty then []
    else
      let s' := lcgNext s
      let i := s' % avail.length
      avail.getD i ⟨none, []⟩ :: sampleAux n s' (avail.eraseIdx i)

/-- The modelled sampler, seeded with `random_state`. -/
def sampleRows (rows : List InRow) (sample_size random_state : Nat) : List InRow :=
  sampleAux sample_size random_state rows

/-- `import_file` on an already-parsed table: return the full table, or, when
`random_sample` is set, the deterministic sample drawn with the fixed seed 42. -/
def import_file (rows : List InRow) (random_sample : Bool) (sample_size : Nat) :
    List InRow :=
  if random_sample then sampleRows rows sample_size 42 else rows

/-- The output row `process_urls` produces for the input row `r` sitting at
index `idx`. -/
def outRowOf (net : Nat → Nat → AttemptEvent) (idx : Nat) (r : InRow) : OutRow :=
  if isRequestRow r then
    ⟨r.url, r.other, toOptionalStr (extract_value_from_url (net idx) 2 5).ret⟩
  else ⟨r.url, r.other, none⟩

/-! Helper lemmas about strings. -/

lemma string_data_append (a b : String) : (a ++ b).data = a.data ++ b.data := by
  cases a
  cases b
  rfl

lemma data_head_of_append (a x : String) (c : Char) (hc : a.data.head? = some c) :
    (a ++ x).data.head? = some c := by
  have ha : a.data ≠ [] := by
    intro h0
    rw [h0] at hc
    simp at hc
  rw [string_data_append, List.head?_append_of_ne_nil _ ha, hc]

lemma string_ne_of_data_head_ne (a b : String) (h : a.data.head? ≠ b.data.head?) :
    a ≠ b :=
  fun he => h (congrArg (fun s => s.data.head?) he)

lemma httpErrorMsg_data_head (s n : Nat) : (httpErrorMsg s n).data.head? = some 'H' := by
  rw [httpErrorMsg]
  exact data_head_of_append _ _ _ (data_head_of_append _ _ _
    (data_head_of_append _ _ _ (data_head_of_append _ _ _ (by decide))))

lemma failedAfterMsg_data_head (n : Nat) : (failedAfterMsg n).data.head? = some 'F' := by
  rw [failedAfterMsg]
  exact data_head_of_append _ _ _ (data_head_of_append _ _ _ (by decide))

lemma httpErrorMsg_ne_failedAfterMsg (s n m : Nat) : httpErrorMsg s n ≠ failedAfterMsg m := by
  apply string_ne_of_data_head_ne
  rw [httpErrorMsg_data_head, failedAfterMsg_data_head]
  decide

/-! Step lemmas for the retry loop: one per event kind, mirroring one loop
iteration. -/

lemma step_httpError (events : Nat → AttemptEvent) (mr rd a status : Nat)
    (h1 : a ≤ mr) (hev : events a = .httpError status) :
    extractLoop events mr rd a =
      if status = 403 ∧ a < mr then
        ⟨(extractLoop events mr rd (a + 1)).ret,
          1 + (extractLoop events mr rd (a + 1)).requests,
          rd :: (extractLoop events mr rd (a + 1)).sleeps⟩
      else ⟨.failure (httpErrorMsg status (a + 1)), 1, []⟩ := by
  rw [extractLoop, dif_pos h1, hev]
  simp only []
  by_cases hc : status = 403 ∧ a < mr
  · rw [dif_pos hc, if_pos hc]
  · rw [dif_neg hc, if_neg hc]

lemma step_timeout (events : Nat → AttemptEvent) (mr rd a : Nat)
    (h1 : a ≤ mr) (hev : events a = .timeout) :
    extractLoop events mr rd a =
      if a < mr then
        ⟨(extractLoop events mr rd (a + 1)).ret,
          1 + (extractLoop events mr rd (a + 1)).requests,
          rd :: (extractLoop events mr rd (a + 1)).sleeps⟩
      else ⟨.failure "Request Timeout", 1, []⟩ := by
  rw [extractLoop, dif_pos h1, hev]
  simp only []
  by_cases hc : a < mr
  · rw [dif_pos hc, if_pos hc]
  · rw [dif_neg hc, if_neg hc]

lemma step_reqException (events : Nat → AttemptEvent) (mr rd a : Nat) (msg : String)
    (h1 : a ≤ mr) (hev : events a = .reqException msg) :
    extractLoop events mr rd a = ⟨.failure ("Request Exception: " ++ msg), 1, []⟩ := by
  rw [extractLoop, dif_pos h1, hev]

lemma step_unexpected (events : Nat → AttemptEvent) (mr rd a : Nat) (msg : String)
    (h1 : a ≤ mr) (hev : events a = .unexpected msg) :
    extractLoop events mr rd a = ⟨.failure ("Unexpected Error: " ++ msg), 1, []⟩ := by
  rw [extractLoop, dif_pos h1, hev]

lemma step_success (events : Nat → AttemptEvent) (mr rd a : Nat) (page : Page)
    (h1 : a ≤ mr) (hev : events a = .success page) :
    extractLoop events mr rd a =
      match (match page.primary with
             | some t => some t
             | none =>
               match page.fallback with
               | some t => some t
               | none => none : Option String) with
      | some t => if t = "" then ⟨.absent, 1, []⟩ else ⟨.text t, 1, []⟩
      | none => ⟨.absent, 1, []⟩ := by
  rw [extractLoop, dif_pos h1, hev]

lemma step_fallthrough (events : Nat → AttemptEvent) (mr rd a : Nat)
    (h1 : ¬ a ≤ mr) :
    extractLoop events mr rd a = ⟨.failure (failedAfterMsg (mr + 1)), 0, []⟩ := by
  rw [extractLoop, dif_neg h1]

/-- When every attempt yields a 403, the loop started at `attempt ≤ max_retries`
retries until the last attempt and then returns the HTTP-error string via the
early-return branch (the fallthrough is not taken). -/
lemma extractLoop_all403 (events : Nat → AttemptEvent)
    (hall : ∀ i, events i = .httpError 403) (rd : Nat) :
    ∀ (d mr attempt : Nat), mr = attempt + d →
      extractLoop events mr rd attempt =
        ⟨.failure (httpErrorMsg 403 (mr + 1)), d + 1, List.replicate d rd⟩ := by
  intro d
  induction d with
  | zero =>
    intro mr attempt h
    have h1 : attempt ≤ mr := by omega
    have hc : ¬ ((403 : Nat) = 403 ∧ attempt < mr) := by omega
    rw [step_httpError events mr rd attempt 403 h1 (hall attempt), if_neg hc]
    have h3 : attempt = mr := by omega
    rw [h3]
    rfl
  | succ d ih =>
    intro mr attempt h
    have h1 : attempt ≤ mr := by omega
    have hc : (403 : Nat) = 403 ∧ attempt < mr := ⟨rfl, by omega⟩
    rw [step_httpError events mr rd attempt 403 h1 (hall attempt), if_pos hc,
      ih mr (attempt + 1) (by omega)]
    simp only [List.replicate_succ, ExtractTrace.mk.injEq]
    exact ⟨trivial, by omega, trivial⟩

/-- The success branch only returns `text t` for non-empty `t`: the
`if extracted_text` truthiness guard rules out the empty string. -/
lemma extractLoop_success_text_ne_empty (events : Nat → AttemptEvent) (mr rd a : Nat)
    (page : Page) (t : String) (h1 : a ≤ mr) (hev : events a = .success page)
    (hret : (extractLoop events mr rd a).ret = .text t) : t ≠ "" := by
  rw [step_success events mr rd a page h1 hev] at hret
  rcases page with ⟨pp, pf⟩
  rcases pp with _ | tp
  · rcases pf with _ | tf
    · simp at hret
    · by_cases ht : tf = ""
      · simp [ht] at hret
      · simp [ht] at hret
        rw [← hret]
        exact ht
  · by_cases ht : tp = ""
    · simp [ht] at hret
    · simp [ht] at hret
      rw [← hret]
      exact ht

/-- Any `text` return of the retry loop carries a non-empty string. -/
lemma extractLoop_text_ne_empty :
    ∀ (d mr attempt rd : Nat) (events : Nat → AttemptEvent) (t : String),
      mr ≤ attempt + d →
      (extractLoop events mr rd attempt).ret = .text t → t ≠ "" := by
  intro d
  induction d with
  | zero =>
    intro mr attempt rd events t hle hret
    by_cases h1 : attempt ≤ mr
    · cases hev : events attempt with
      | success page =>
        exact extractLoop_success_text_ne_empty events mr rd attempt page t h1 hev hret
      | httpError status =>
        have hc : ¬ (status = 403 ∧ attempt < mr) := by omega
        rw [step_httpError events mr rd attempt status h1 hev, if_neg hc] at hret
        simp at hret
      | timeout =>
        have hc : ¬ attempt < mr := by omega
        rw [step_timeout events mr rd attempt h1 hev, if_neg hc] at hret
        simp at hret
      | reqException msg =>
        rw [step_reqException events mr rd attempt msg h1 hev] at hret
        simp at hret
      | unexpected msg =>
        rw [step_unexpected events mr rd attempt msg h1 hev] at hret
        simp at hret
    · rw [step_fallthrough events mr rd attempt h1] at hret
      simp at hret
  | succ d ih =>
    intro mr attempt rd events t hle hret
    by_cases h1 : attempt ≤ mr
    · cases hev : events attempt with
      | success page =>
        exact extractLoop_success_text_ne_empty events mr rd attempt page t h1 hev hret
      | httpError status =>
        by_cases hc : status = 403 ∧ attempt < mr
        · rw [step_httpError events mr rd attempt status h1 hev, if_pos hc] at hret
          exact ih mr (attempt + 1) rd events t (by omega) hret
        · rw [step_httpError events mr rd attempt status h1 hev, if_neg hc] at hret
          simp at hret
      | timeout =>
        by_cases hc : attempt < mr
        · rw [step_timeout events mr rd attempt h1 hev, if_pos hc] at hret
          exact ih mr (attempt + 1) rd events t (by omega) hret
        · rw [step_timeout events mr rd attempt h1 hev, if_neg hc] at hret
          simp at hret
      | reqException msg =>
        rw [step_reqException events mr rd attempt msg h1 hev] at hret
        simp at hret
      | unexpected msg =>
        rw [step_unexpected events mr rd attempt msg h1 hev] at hret
        simp at hret
    · rw [step_fallthrough events mr rd attempt h1] at hret
      simp at hret

/-! Helper lemmas about the row loop. -/

lemma numNonBlank_cons (r : InRow) (rs : List InRow) :
    numNonBlank (r :: rs) = (if isRequestRow r = true then 1 else 0) + numNonBlank rs := by
  by_cases hr : isRequestRow r = true
  · simp [numNonBlank, List.filter_cons, hr]
    omega
  · simp [numNonBlank, List.filter_cons, hr]

lemma countNonNull_cons (r : InRow) (rs : List InRow) :
    countNonNull (r :: rs) = (if r.url ≠ none then 1 else 0) + countNonNull rs := by
  by_cases hu : r.url ≠ none
  · simp [countNonNull, List.filter_cons, hu]
    omega
  · simp [countNonNull, List.filter_cons, hu]

lemma processRows_out_getElem (net : Nat → Nat → AttemptEvent) (total : Nat) :
    ∀ (rs : List InRow) (idx made i : Nat),
      (processRows net total rs idx made).1[i]? =
        (rs[i]?).map (fun r => outRowOf net (idx + i) r) := by
  intro rs
  induction rs with
  | nil =>
    intro idx made i
    simp [processRows]
  | cons r rs ih =>
    intro idx made i
    by_cases hr : isRequestRow r = true
    · cases i with
      | zero =>
        simp [processRows, hr, outRowOf]
      | succ j =>
        have harith : idx + 1 + j = idx + (j + 1) := by omega
        simp only [processRows, hr, if_true, List.getElem?_cons_succ]
        rw [ih (idx + 1) (made + 1) j, harith]
    · cases i with
      | zero =>
        simp [processRows, hr, outRowOf]
      | succ j =>
        have harith : idx + 1 + j = idx + (j + 1) := by omega
        simp only [processRows, hr, Bool.false_eq_true, if_false,
          List.getElem?_cons_succ]
        rw [ih (idx + 1) made j, harith]

lemma processRows_out_length (net : Nat → Nat → AttemptEvent) (total : Nat) :
    ∀ (rs : List InRow) (idx made : Nat),
      (processRows net total rs idx made).1.length = rs.length := by
  intro rs
  induction rs with
  | nil =>
    intro idx made
    simp [processRows]
  | cons r rs ih =>
    intro idx made
    by_cases hr : isRequestRow r = true <;>
      simp [processRows, hr, ih]

lemma requestIdxs_length : ∀ (rs : List InRow) (idx : Nat),
    (requestIdxs rs idx).length = numNonBlank rs := by
  intro rs
  induction rs with
  | nil =>
    intro idx
    simp [requestIdxs, numNonBlank]
  | cons r rs ih =>
    intro idx
    by_cases hr : isRequestRow r = true
    · simp [requestIdxs, numNonBlank_cons, hr, ih]
      omega
    · simp [requestIdxs, numNonBlank_cons, hr, ih]

/-- The throttle sleeps recorded by the loop, given the invariant that
`total` exceeds `made` by exactly the number of requests still to be issued:
the loop sleeps after every request except the last one. -/
lemma processRows_sleeps (net : Nat → Nat → AttemptEvent) :
    ∀ (rs : List InRow) (idx made total : Nat),
      total = made + numNonBlank rs →
      (processRows net total rs idx made).2.2 = (requestIdxs rs idx).dropLast := by
  intro rs
  induction rs with
  | nil =>
    intro idx made total htot
    simp [processRows, requestIdxs]
  | cons r rs ih =>
    intro idx made total htot
    by_cases hr : isRequestRow r = true
    · have htot' : total = (made + 1) + numNonBlank rs := by
        rw [htot, numNonBlank_cons, if_pos hr]
        omega
      simp only [processRows, hr, if_true]
      rw [ih (idx + 1) (made + 1) total htot']
      rcases hl : requestIdxs rs (idx + 1) with _ | ⟨b, l⟩
      · have hnb : numNonBlank rs = 0 := by
          rw [← requestIdxs_length rs (idx + 1), hl]
          rfl
        have hlt : ¬ made + 1 < total := by omega
        simp [requestIdxs, hr, hl, hlt]
      · have hnb : 0 < numNonBlank rs := by
          rw [← requestIdxs_length rs (idx + 1), hl]
          simp
        have hlt : made + 1 < total := by omega
        simp [requestIdxs, hr, hl, hlt]
    · have htot' : total = made + numNonBlank rs := by
        rw [htot, numNonBlank_cons, if_neg hr]
        omega
      simp only [processRows, hr, Bool.false_eq_true, if_false]
      rw [ih (idx + 1) made total htot']
      simp [requestIdxs, hr]

/-- A row whose `url` cell is missing never issues a request. -/
lemma isRequestRow_of_none (r : InRow) (h : r.url = none) : isRequestRow r = false := by
  simp [isRequestRow, urlStr, h, pyStrip]

/-- When every present (non-null) url is non-blank, the pandas count used as
the throttle denominator equals the number of requests actually issued. -/
lemma countNonNull_eq_numNonBlank (rows : List InRow)
    (h : ∀ r ∈ rows, r.url ≠ none → isRequestRow r = true) :
    countNonNull rows = numNonBlank rows := by
  induction rows with
  | nil => rfl
  | cons r rs ih =>
    have hr := h r (by simp)
    have ih' := ih (fun x hx hnn => h x (by simp [hx]) hnn)
    rw [countNonNull_cons, numNonBlank_cons, ih']
    rcases hu : r.url with _ | u
    · have hreq : isRequestRow r = false := isRequestRow_of_none r hu
      simp [hu, hreq]
    · have hreq : isRequestRow r = true := hr (by simp [hu])
      simp [hu, hreq]

/-! The claims. -/

/-- Claim C6: for every call whose first HTTP response has status 404, the function
returns `FailureDescription("HTTP Error: 404 (Attempt 1)")` immediately, with
exactly one HTTP request made and no retry sleep, regardless of the retry
budget. -/
theorem c6_http404_no_retry (events : Nat → AttemptEvent) (mr rd : Nat)
    (hev : events 0 = .httpError 404) :
    extract_value_from_url events mr rd =
      ⟨.failure "HTTP Error: 404 (Attempt 1)", 1, []⟩ := by
  rw [extract_value_from_url, step_httpError events mr rd 0 404 (by omega) hev]
  have hc : ¬ ((404 : Nat) = 403 ∧ 0 < mr) := by omega
  rw [if_neg hc]
  have hmsg : httpErrorMsg 404 (0 + 1) = "HTTP Error: 404 (Attempt 1)" := by decide
  rw [hmsg]

/-- Witness for C6 at a concrete input. -/
theorem c6_http404_no_retry_witness :
    ((fun _ : Nat => AttemptEvent.httpError 404) 0 = AttemptEvent.httpError 404) ∧
    extract_value_from_url (fun _ => .httpError 404) 2 5 =
      ⟨.failure "HTTP Error: 404 (Attempt 1)", 1, []⟩ :=
  ⟨rfl, c6_http404_no_retry _ 2 5 rfl⟩

/-- Claim C7: whenever the request at the current attempt times out, the function
retries (after a `retry_delay` sleep, with one more request) if attempts
remain, and otherwise returns `FailureDescription("Request Timeout")`. -/
theorem c7_timeout_retry_or_fail (events : Nat → AttemptEvent) (mr rd attempt : Nat)
    (hev : events attempt = .timeout) (h1 : attempt ≤ mr) :
    extractLoop events mr rd attempt =
      if attempt < mr then
        ⟨(extractLoop events mr rd (attempt + 1)).ret,
          1 + (extractLoop events mr rd (attempt + 1)).requests,
          rd :: (extractLoop events mr rd (attempt + 1)).sleeps⟩
      else ⟨.failure "Request Timeout", 1, []⟩ :=
  step_timeout events mr rd attempt h1 hev

/-- Witness for C7 at a concrete input. -/
theorem c7_timeout_retry_or_fail_witness :
    ((fun _ : Nat => AttemptEvent.timeout) 0 = AttemptEvent.timeout) ∧ (0 ≤ 1) ∧
    extractLoop (fun _ => .timeout) 1 5 0 =
      (if 0 < 1 then
        ⟨(extractLoop (fun _ => .timeout) 1 5 1).ret,
          1 + (extractLoop (fun _ => .timeout) 1 5 1).requests,
          5 :: (extractLoop (fun _ => .timeout) 1 5 1).sleeps⟩
      else ⟨.failure "Request Timeout", 1, []⟩) :=
  ⟨rfl, by omega, c7_timeout_retry_or_fail _ 1 5 0 rfl (by omega)⟩

/-- Claim C2 counterexample: with `max_retries = 2` and a 403 on every attempt, the
call returns the early-return string `HTTP Error: 403 (Attempt 3)`, not the
`Failed after 3 attempts ...` fallthrough string the claim requires. -/
theorem c2_fallthrough_counterexample :
    (extract_value_from_url (fun _ => .httpError 403) 2 5).ret =
        .failure "HTTP Error: 403 (Attempt 3)" ∧
    (extract_value_from_url (fun _ => .httpError 403) 2 5).ret ≠
        .failure "Failed after 3 attempts (last error was likely 403 or Timeout)" := by
  constructor
  · simp [extract_value_from_url, extractLoop]
    decide
  · simp [extract_value_from_url, extractLoop]
    decide

/-- Claim C2 amended: a 403 on every attempt exhausts the budget through the retry
path but returns `HTTP Error: 403 (Attempt max_retries+1)` via the early
return on the final attempt; the `Failed after ...` fallthrough string is not
produced in this scenario. -/
theorem c2_all403_amended (events : Nat → AttemptEvent)
    (hall : ∀ i, events i = .httpError 403) (mr rd : Nat) :
    extract_value_from_url events mr rd =
      ⟨.failure (httpErrorMsg 403 (mr + 1)), mr + 1, List.replicate mr rd⟩ ∧
    (extract_value_from_url events mr rd).ret ≠ .failure (failedAfterMsg (mr + 1)) := by
  have h := extractLoop_all403 events hall rd mr mr 0 (by omega)
  rw [extract_value_from_url]
  refine ⟨h, ?_⟩
  rw [h]
  simp only [ne_eq, ExtractResult.failure.injEq]
  exact httpErrorMsg_ne_failedAfterMsg 403 (mr + 1) (mr + 1)

/-- Witness for the amended C2 at a concrete input. -/
theorem c2_all403_amended_witness :
    (∀ i : Nat, (fun _ : Nat => AttemptEvent.httpError 403) i = AttemptEvent.httpError 403) ∧
    (extract_value_from_url (fun _ => .httpError 403) 2 5 =
        ⟨.failure (httpErrorMsg 403 3), 3, List.replicate 2 5⟩ ∧
      (extract_value_from_url (fun _ => .httpError 403) 2 5).ret ≠
        .failure (failedAfterMsg 3)) :=
  ⟨fun _ => rfl, c2_all403_amended _ (fun _ => rfl) 2 5⟩

/-- Claim C5 counterexample: a successful response whose body contains only the
fallback selector, with empty element text, yields `Absent` — not `Text` of
the fallback element's (empty) text. -/
theorem c5_fallback_empty_counterexample :
    (extract_value_from_url (fun _ => .success ⟨none, some ""⟩) 2 5).ret = .absent ∧
    (extract_value_from_url (fun _ => .success ⟨none, some ""⟩) 2 5).ret ≠ .text "" := by
  constructor
  · simp [extract_value_from_url, extractLoop]
  · simp [extract_value_from_url, extractLoop]

/-- Claim C5 amended: the primary selector is consulted first — a non-empty primary
text is returned whatever the fallback holds — and a body containing only the
fallback selector yields `Text` of the fallback text provided that text is
non-empty. -/
theorem c5_selector_precedence_amended (mr rd : Nat) (fb : Option String) (t : String)
    (ht : t ≠ "") :
    (extract_value_from_url (fun _ => .success ⟨some t, fb⟩) mr rd).ret = .text t ∧
    (extract_value_from_url (fun _ => .success ⟨none, some t⟩) mr rd).ret = .text t := by
  constructor
  · rw [extract_value_from_url,
      step_success _ mr rd 0 ⟨some t, fb⟩ (by omega) rfl]
    simp [ht]
  · rw [extract_value_from_url,
      step_success _ mr rd 0 ⟨none, some t⟩ (by omega) rfl]
    simp [ht]

/-- Witness for the amended C5 at a concrete input. -/
theorem c5_selector_precedence_amended_witness :
    ("42 risultati" ≠ "") ∧
    ((extract_value_from_url (fun _ => .success ⟨some "42 risultati", some "other"⟩) 2 5).ret =
        .text "42 risultati" ∧
      (extract_value_from_url (fun _ => .success ⟨none, some "42 risultati"⟩) 2 5).ret =
        .text "42 risultati") :=
  ⟨by decide, c5_selector_precedence_amended 2 5 (some "other") "42 risultati" (by decide)⟩

/-- Claim C10: a 2xx response whose primary element exists but has empty normalized
text yields `Absent` whatever the fallback element holds (the fallback is not
consulted), and more generally a `Text` outcome never carries the empty
string. -/
theorem c10_text_nonempty :
    (∀ (mr rd : Nat) (fb : Option String) (events : Nat → AttemptEvent),
        events 0 = .success ⟨some "", fb⟩ →
        extract_value_from_url events mr rd = ⟨.absent, 1, []⟩) ∧
    (∀ (events : Nat → AttemptEvent) (mr rd : Nat) (t : String),
        (extract_value_from_url events mr rd).ret = .text t → t ≠ "") := by
  constructor
  · intro mr rd fb events hev
    rw [extract_value_from_url, step_success events mr rd 0 ⟨some "", fb⟩ (by omega) hev]
    simp
  · intro events mr rd t hret
    exact extractLoop_text_ne_empty mr mr 0 rd events t (by omega) hret

/-- Witness for C10 at concrete inputs. -/
theorem c10_text_nonempty_witness :
    ((fun _ : Nat => AttemptEvent.success ⟨some "", some "fallback"⟩) 0 =
        AttemptEvent.success ⟨some "", some "fallback"⟩ ∧
      extract_value_from_url (fun _ => .success ⟨some "", some "fallback"⟩) 2 5 =
        ⟨.absent, 1, []⟩) ∧
    ((extract_value_from_url (fun _ => .success ⟨some "5 offerte", none⟩) 2 5).ret =
        .text "5 offerte" ∧ "5 offerte" ≠ "") := by
  refine ⟨⟨rfl, c10_text_nonempty.1 2 5 (some "fallback") _ rfl⟩, ?_, ?_⟩
  · simp [extract_value_from_url, extractLoop]
  · exact c10_text_nonempty.2 (fun _ => .success ⟨some "5 offerte", none⟩) 2 5
      "5 offerte" (by simp [extract_value_from_url, extractLoop])

/-- Claim C8: on an empty loaded table, `process_urls` reports the error, writes no
output, issues no extraction request and runs no throttle sleep — it returns
normally rather than raising. -/
theorem c8_empty_table_aborts (net : Nat → Nat → AttemptEvent) :
    process_urls net [] = ⟨none, true, 0, []⟩ := rfl

/-- Claim C9: two loading runs with sampling enabled, on the same table with the
same sample size, select the identical rows in the identical order — the
sampler is a deterministic function seeded with the fixed seed 42. -/
theorem c9_sampling_deterministic (rows : List InRow) (n : Nat) (r1 r2 : List InRow)
    (h1 : r1 = import_file rows true n) (h2 : r2 = import_file rows true n) :
    r1 = r2 :=
  h1.trans h2.symm

/-- Witness for C9 at a concrete input. -/
theorem c9_sampling_deterministic_witness :
    import_file [⟨some "http://a", []⟩, ⟨some "http://b", []⟩, ⟨none, []⟩] true 2 =
      import_file [⟨some "http://a", []⟩, ⟨some "http://b", []⟩, ⟨none, []⟩] true 2 :=
  c9_sampling_deterministic _ 2 _ _ rfl rfl

/-- Claim C1: in the written table, a populated `results` cell occurs only on rows
whose url was non-blank; blank-url rows keep the `None` the column was
initialised with; a non-blank row gets the extractor's return value, which is
null exactly when the outcome was `Absent` (element not found). -/
theorem c1_results_iff_url_nonblank (net : Nat → Nat → AttemptEvent)
    (rows : List InRow) (hne : rows ≠ []) :
    ∃ out : List OutRow, (process_urls net rows).output = some out ∧
      out.length = rows.length ∧
      ∀ (i : Nat) (r : InRow) (o : OutRow), rows[i]? = some r → out[i]? = some o →
        (o.results ≠ none → isRequestRow r = true) ∧
        (isRequestRow r = false → o.results = none) ∧
        (isRequestRow r = true →
          o.results = toOptionalStr (extract_value_from_url (net i) 2 5).ret) ∧
        ((extract_value_from_url (net i) 2 5).ret = .absent → o.results = none) := by
  refine ⟨(processRows net (countNonNull rows) rows 0 0).1, ?_,
    processRows_out_length net (countNonNull rows) rows 0 0, ?_⟩
  · simp [process_urls, hne]
  · intro i r o hri hoi
    have hg := processRows_out_getElem net (countNonNull rows) rows 0 0 i
    rw [hri, hoi] at hg
    simp at hg
    subst hg
    by_cases hreq : isRequestRow r = true
    · refine ⟨fun _ => hreq, ?_, ?_, ?_⟩
      · intro hf
        rw [hf] at hreq
        cases hreq
      · intro _
        simp [outRowOf, hreq]
      · intro habs
        simp [outRowOf, hreq, habs, toOptionalStr]
    · have hreq' : isRequestRow r = false := by simpa using hreq
      refine ⟨?_, fun _ => by simp [outRowOf, hreq'], fun ht => absurd ht hreq,
        fun _ => by simp [outRowOf, hreq']⟩
      intro hne'
      exact absurd (by simp [outRowOf, hreq']) hne'

/-- Witness for C1 at a concrete input. -/
theorem c1_results_iff_url_nonblank_witness :
    (([⟨some "http://a", ["x"]⟩, ⟨none, ["y"]⟩] : List InRow) ≠ []) ∧
    (∃ out : List OutRow,
      (process_urls (fun _ _ => .reqException "refused")
          [⟨some "http://a", ["x"]⟩, ⟨none, ["y"]⟩]).output = some out ∧
      out.length = ([⟨some "http://a", ["x"]⟩, ⟨none, ["y"]⟩] : List InRow).length ∧
      ∀ (i : Nat) (r : InRow) (o : OutRow),
        ([⟨some "http://a", ["x"]⟩, ⟨none, ["y"]⟩] : List InRow)[i]? = some r →
        out[i]? = some o →
        (o.results ≠ none → isRequestRow r = true) ∧
        (isRequestRow r = false → o.results = none) ∧
        (isRequestRow r = true →
          o.results =
            toOptionalStr (extract_value_from_url ((fun _ _ => .reqException "refused") i) 2 5).ret) ∧
        ((extract_value_from_url ((fun _ _ => .reqException "refused") i) 2 5).ret = .absent →
          o.results = none)) :=
  ⟨by decide, c1_results_iff_url_nonblank _ _ (by decide)⟩

/-- Claim C4: the written table has exactly one output row per loaded input row, in
the same order, each keeping the original cells (url and pass-through
columns) and adding the `results` field. -/
theorem c4_output_shape (net : Nat → Nat → AttemptEvent)
    (rows : List InRow) (hne : rows ≠ []) :
    ∃ out : List OutRow, (process_urls net rows).output = some out ∧
      out.length = rows.length ∧
      ∀ (i : Nat) (r : InRow) (o : OutRow), rows[i]? = some r → out[i]? = some o →
        o.url = r.url ∧ o.other = r.other := by
  refine ⟨(processRows net (countNonNull rows) rows 0 0).1, ?_,
    processRows_out_length net (countNonNull rows) rows 0 0, ?_⟩
  · simp [process_urls, hne]
  · intro i r o hri hoi
    have hg := processRows_out_getElem net (countNonNull rows) rows 0 0 i
    rw [hri, hoi] at hg
    simp at hg
    subst hg
    by_cases hreq : isRequestRow r = true <;> simp [outRowOf, hreq]

/-- Witness for C4 at a concrete input. -/
theorem c4_output_shape_witness :
    (([⟨some "http://a", ["x"]⟩, ⟨none, ["y"]⟩] : List InRow) ≠ []) ∧
    (∃ out : List OutRow,
      (process_urls (fun _ _ => .timeout)
          [⟨some "http://a", ["x"]⟩, ⟨none, ["y"]⟩]).output = some out ∧
      out.length = ([⟨some "http://a", ["x"]⟩, ⟨none, ["y"]⟩] : List InRow).length ∧
      ∀ (i : Nat) (r : InRow) (o : OutRow),
        ([⟨some "http://a", ["x"]⟩, ⟨none, ["y"]⟩] : List InRow)[i]? = some r →
        out[i]? = some o →
        o.url = r.url ∧ o.other = r.other) :=
  ⟨by decide, c4_output_shape _ _ (by decide)⟩

/-- Claim C3 counterexample: on a table whose second row holds a whitespace-only
(non-null) url, the single request made — the final one — is followed by a
throttle sleep, because `df['url'].count()` counts the blank row. -/
theorem c3_throttle_counterexample :
    (process_urls (fun _ _ => .reqException "refused")
        [⟨some "http://a", []⟩, ⟨some " ", []⟩]).requestsMade = 1 ∧
    (process_urls (fun _ _ => .reqException "refused")
        [⟨some "http://a", []⟩, ⟨some " ", []⟩]).throttleSleeps = [0] := by
  constructor
  · simp [process_urls, processRows, countNonNull, isRequestRow, urlStr,
      extract_value_from_url, extractLoop, toOptionalStr]
    decide
  · simp [process_urls, processRows, countNonNull, isRequestRow, urlStr,
      extract_value_from_url, extractLoop, toOptionalStr]
    decide

/-- Claim C3 amended: the 2-second throttle sleep follows a row's request exactly
when more requests remain, provided every non-null url value is non-blank
(the code's denominator `df['url'].count()` counts non-null rather than
non-blank urls): the recorded sleep positions are exactly all requesting rows
except the last. -/
theorem c3_throttle_amended (net : Nat → Nat → AttemptEvent) (rows : List InRow)
    (h : ∀ r ∈ rows, r.url ≠ none → isRequestRow r = true) :
    (process_urls net rows).throttleSleeps = (requestIdxs rows 0).dropLast := by
  by_cases hne : rows = []
  · subst hne
    rfl
  · have htot : countNonNull rows = 0 + numNonBlank rows := by
      rw [countNonNull_eq_numNonBlank rows h]
      omega
    rw [process_urls, if_neg hne]
    exact processRows_sleeps net rows 0 0 (countNonNull rows) htot

/-- Witness for the amended C3 at a concrete input. -/
theorem c3_throttle_amended_witness :
    (∀ r ∈ ([⟨some "http://a", []⟩, ⟨some "http://b", []⟩] : List InRow),
      r.url ≠ none → isRequestRow r = true) ∧
    (process_urls (fun _ _ => .reqException "refused")
        [⟨some "http://a", []⟩, ⟨some "http://b", []⟩]).throttleSleeps =
      (requestIdxs [⟨some "http://a", []⟩, ⟨some "http://b", []⟩] 0).dropLast :=
  ⟨by decide, c3_throttle_amended _ _ (by decide)⟩

end ScrapeData
